import Mathlib

/-!
Verification development for the egress connection pool
(src/mongo/executor/connection_pool.cpp) and the sharding task executor
parameter loading (src/mongo/s/sharding_task_executor_parameters.cpp).

The C++ code is shallowly embedded as executable Lean definitions:

* machine times (Date_t, Milliseconds) become Nat (and Int where the C++
  value is a signed int that may go negative),
* the four ownership containers of a SpecificPool become lists of Conn
  records (the ready LRUCache is a list with the most-recently-used
  element in front, as in the source where begin() is the MRU item),
* the request vector, which the source manipulates only through
  std::push_heap / std::pop_heap with RequestComparator
  (a.first > b.first), becomes a list in binary-heap layout together with
  executable siftUp / siftDown translations of those algorithms,
* the single PoolClub with its set of SpecificPools becomes a Club record
  holding a list of pools; top-level operations act on a pool index.

Asynchronous completions (setup/refresh callbacks, timer fires, handle
returns) are modelled as labelled transitions of a Step relation whose
guards mirror the conditions under which the corresponding callback can
run in the source.
-/

namespace ConnPool

/-- Error codes appearing in connection_pool.cpp and its callers. -/
inductive ErrorCode
  | networkInterfaceExceededTimeLimit
  | shutdownInProgress
  | pooledConnectionsDropped
  | internalError
  | hostUnreachable
deriving DecidableEq, Repr

/-- A mongo Status: OK or an error code. -/
inductive Status
  | ok
  | err (c : ErrorCode)
deriving DecidableEq, Repr

/-- Status::isOK(). -/
def Status.isOK : Status → Bool
  | .ok => true
  | .err _ => false

/-- ConnectionPool::kConnectionStateUnknown, an InternalError status. -/
def kConnectionStateUnknown : Status := .err .internalError

/-- ConnectionPool::Options: the configuration knobs read by the pool. -/
structure Options where
  minConnections : Nat
  maxConnections : Nat
  maxConnecting : Nat
  refreshTimeout : Nat
  refreshRequirement : Nat
  hostTimeout : Nat
deriving DecidableEq, Repr

/-- One ConnectionInterface object. The id models the object pointer used
as the key of the ownership containers; gen is the pool generation copied
at construction; timerExpiresAt models the one-shot refresh timer armed by
setTimeout (none after cancelTimeout). -/
structure Conn where
  id : Nat
  gen : Nat
  status : Status
  lastUsed : Nat
  healthy : Bool
  timerExpiresAt : Option Nat
deriving DecidableEq, Repr

/-- ConnectionInterface::indicateSuccess. -/
def Conn.indicateSuccess (c : Conn) : Conn := { c with status := .ok }

/-- ConnectionInterface::indicateUsed (caller side; requires a non-failed
status per the invariant in the source). -/
def Conn.indicateUsed (now : Nat) (c : Conn) : Conn := { c with lastUsed := now }

/-- ConnectionInterface::resetToUnknown. -/
def Conn.resetToUnknown (c : Conn) : Conn := { c with status := kConnectionStateUnknown }

/-- ConnectionInterface::cancelTimeout. -/
def Conn.cancelTimeout (c : Conn) : Conn := { c with timerExpiresAt := none }

/-! ### The request heap

Requests are pairs of expiration date and a promise; we model the promise
by a request id. The source keeps them in a std::vector ordered as a
binary heap through std::push_heap / std::pop_heap with RequestComparator
comparing a.first > b.first, so the front of the vector is the request
with the smallest deadline. siftUp and siftDown below are the standard
library heap algorithms at the level of detail the pool observes. -/

/-- A pending request: (expiration date, request id standing for the
promise). -/
abbrev Req := Nat × Nat

/-- Deadline key of the heap entry at index i (0 outside the list). -/
def keyAt (l : List Req) (i : Nat) : Nat := (l.getD i (0, 0)).1

/-- Swap the entries at two indices. -/
def lswap (l : List Req) (i j : Nat) : List Req :=
  (l.set i (l.getD j (0, 0))).set j (l.getD i (0, 0))

/-- Sift the entry at index i up towards the root while it is smaller than
its parent (std::push_heap with RequestComparator). The index strictly
decreases at each swap, so i + 1 units of fuel always complete the walk;
the fuel only makes the structural recursion explicit. -/
def siftUp : Nat → List Req → Nat → List Req
  | 0, l, _ => l
  | fuel + 1, l, i =>
    if i = 0 then l
    else
      let p := (i - 1) / 2
      if keyAt l i < keyAt l p then siftUp fuel (lswap l p i) p else l

/-- Push a request onto the heap: append then sift up
(push_back + std::push_heap in the source). -/
def heapPush (l : List Req) (x : Req) : List Req :=
  siftUp (l.length + 1) (l ++ [x]) l.length

/-- The smaller-keyed child of index i (the left child when the right one
is absent or not smaller). -/
def minChild (l : List Req) (i : Nat) : Nat :=
  if 2 * i + 2 < l.length ∧ keyAt l (2 * i + 2) < keyAt l (2 * i + 1) then 2 * i + 2
  else 2 * i + 1

/-- Sift the entry at index i down, swapping with its smaller child while
that child is smaller (the restoration pass of std::pop_heap). -/
def siftDown (l : List Req) (i : Nat) : Nat → List Req
  | 0 => l
  | fuel + 1 =>
    if 2 * i + 1 ≥ l.length then l
    else if keyAt l (minChild l i) < keyAt l i then
      siftDown (lswap l i (minChild l i)) (minChild l i) fuel
    else l

/-- The front of the request heap: the pending request with the earliest
deadline (_requests.front() in the source). -/
def heapFront (l : List Req) : Req := l.headD (0, 0)

/-- Remove the front of the heap (std::pop_heap followed by pop_back):
swap the root with the last entry, drop the last entry, sift the new root
down. -/
def heapPop (l : List Req) : List Req :=
  match l with
  | [] => []
  | [_] => []
  | _ => siftDown ((lswap l 0 (l.length - 1)).take (l.length - 1)) 0 l.length

/-- The binary-heap layout invariant maintained by push_heap / pop_heap:
every non-root entry is at least its parent, so the front is the earliest
deadline. -/
def HeapProp (l : List Req) : Prop :=
  ∀ j, j < l.length → 0 < j → keyAt l ((j - 1) / 2) ≤ keyAt l j

instance (l : List Req) : Decidable (HeapProp l) :=
  Nat.decidableBallLT l.length _

/-- The sift-up loop invariant: the heap property holds at every non-root
index other than i, and both children of i (when i is not the root)
dominate the parent of i. -/
def AlmostUp (l : List Req) (i : Nat) : Prop :=
  (∀ j, j < l.length → 0 < j → j ≠ i → keyAt l ((j - 1) / 2) ≤ keyAt l j) ∧
  (∀ c, c < l.length → 0 < i → (c = 2 * i + 1 ∨ c = 2 * i + 2) →
    keyAt l ((i - 1) / 2) ≤ keyAt l c)

/-- The sift-down loop invariant: the heap property holds at every edge
whose parent is not i, and both children of i (when i is not the root)
dominate the parent of i. -/
def AlmostDown (l : List Req) (i : Nat) : Prop :=
  (∀ j, j < l.length → 0 < j → (j - 1) / 2 ≠ i → keyAt l ((j - 1) / 2) ≤ keyAt l j) ∧
  (∀ c, c < l.length → 0 < i → (c = 2 * i + 1 ∨ c = 2 * i + 2) →
    keyAt l ((i - 1) / 2) ≤ keyAt l c)

/-! ### SpecificPool and PoolClub state -/

/-- SpecificPool::State. -/
inductive PoolState
  | kRunning
  | kIdle
  | kHostTimedOut
  | kInShutdown
deriving DecidableEq, Repr

/-- The state of one SpecificPool. The ready list has the MRU element in
front; requests is the binary heap described above; delisted records that
updateStateInLock erased the pool from the parent map. -/
structure SpecificPool where
  hostId : Nat
  ready : List Conn
  processingPool : List Conn
  droppedProcessingPool : List Conn
  checkedOutPool : List Conn
  requests : List Req
  requestTimerExpiration : Nat
  activeClients : Nat
  generation : Nat
  created : Nat
  state : PoolState
  delisted : Bool
deriving DecidableEq, Repr

/-- A freshly constructed SpecificPool (the SpecificPool constructor). -/
def freshPool (host : Nat) : SpecificPool :=
  { hostId := host
    ready := []
    processingPool := []
    droppedProcessingPool := []
    checkedOutPool := []
    requests := []
    requestTimerExpiration := 0
    activeClients := 0
    generation := 0
    created := 0
    state := .kRunning
    delisted := false }

instance : Inhabited SpecificPool := ⟨freshPool 0⟩

/-- ConnectionPool::PoolClub together with the set of member pools. The
pools list doubles as the parent ConnectionPool map restricted to this
club. -/
structure Club where
  minConns : Nat
  defaultMinConns : Nat
  primary : Option Nat
  pools : List SpecificPool
deriving DecidableEq, Repr

def Club.getPool (club : Club) (i : Nat) : SpecificPool := club.pools.getD i default

def Club.setPool (club : Club) (i : Nat) (p : SpecificPool) : Club :=
  { club with pools := club.pools.set i p }

/-- SpecificPool::inUseConnections. -/
def inUseConnections (p : SpecificPool) : Nat := p.checkedOutPool.length

/-- SpecificPool::openConnections: checkedOut + ready + processing. -/
def openConnections (p : SpecificPool) : Nat :=
  p.checkedOutPool.length + p.ready.length + p.processingPool.length

/-- SpecificPool::takeFromPool: find a connection by key and remove it. -/
def takeFromPool : List Conn → Nat → Option Conn × List Conn
  | [], _ => (none, [])
  | c :: rest, cid =>
    if c.id = cid then (some c, rest)
    else
      let (found, rest1) := takeFromPool rest cid
      (found, c :: rest1)

/-- SpecificPool::takeFromProcessingPool: look in processing first, then
in droppedProcessing. -/
def takeFromProcessingPool (p : SpecificPool) (cid : Nat) : Option Conn × SpecificPool :=
  match takeFromPool p.processingPool cid with
  | (some c, rest) => (some c, { p with processingPool := rest })
  | (none, _) =>
    match takeFromPool p.droppedProcessingPool cid with
    | (found, rest) => (found, { p with droppedProcessingPool := rest })

/-- The sentinel for Date_t::max used for the request timer while
connections are checked out but no request is pending. -/
def maxDate : Nat := 2 ^ 62

/-- SpecificPool::updateStateInLock: walk the Running / Idle state
machine, manage the request timer expiration, and delist the pool once
shutdown has drained. Timer callbacks themselves are separate Step
transitions. -/
def updateStateInLock (opts : Options) (now : Nat) (p : SpecificPool) : SpecificPool :=
  if p.state = .kInShutdown then
    if p.processingPool.isEmpty ∧ p.activeClients = 0 then { p with delisted := true } else p
  else if p.requests.length ≠ 0 then
    if p.state = .kRunning ∧ p.requestTimerExpiration = (heapFront p.requests).1 then p
    else { p with state := .kRunning, requestTimerExpiration := (heapFront p.requests).1 }
  else if p.checkedOutPool.length ≠ 0 then
    { p with state := .kRunning, requestTimerExpiration := maxDate }
  else if p.state = .kIdle then p
  else { p with state := .kIdle, requestTimerExpiration := now + opts.hostTimeout }

/-- SpecificPool::tryGetInternal: repeatedly take the MRU ready
connection, cancel its refresh timeout, drop it if unhealthy, and
otherwise check it out and reset its status to Unknown. -/
def tryGetLoop : List Conn → Option Conn × List Conn
  | [] => (none, [])
  | c :: rest =>
    let c := c.cancelTimeout
    if c.healthy then (some c.resetToUnknown, rest)
    else tryGetLoop rest

def tryGetInternal (p : SpecificPool) : Option Conn × SpecificPool :=
  match tryGetLoop p.ready with
  | (none, rest) => (none, { p with ready := rest })
  | (some c, rest) =>
    (some c, { p with ready := rest, checkedOutPool := c :: p.checkedOutPool })

/-- The result of SpecificPool::getConnection, standing for the returned
Future of a ConnectionHandle. aborted models the
invariant(_state != kInShutdown) failure; failedImmediately models an
immediately failed future (never produced by getConnection). -/
inductive GetResult
  | aborted
  | ready (c : Conn)
  | enqueued (deadline : Nat)
  | failedImmediately (e : ErrorCode)
deriving DecidableEq, Repr

/-- The timeout clamp in getConnection: a negative or over-large timeout
becomes refreshTimeout. -/
def clampTimeout (t : Int) (refreshTimeout : Nat) : Nat :=
  if t < 0 ∨ t > (refreshTimeout : Int) then refreshTimeout else t.toNat

/-- SpecificPool::getConnection. Returns the future result, the updated
pool, and whether a spawnConnections task was scheduled on the executor. -/
def getConnection (opts : Options) (now : Nat) (timeout : Int) (rid : Nat)
    (p : SpecificPool) : GetResult × SpecificPool × Bool :=
  if p.state = .kInShutdown then (.aborted, p, false)
  else
    match tryGetInternal p with
    | (some c, p1) => (.ready c, p1, false)
    | (none, p1) =>
      let t := clampTimeout timeout opts.refreshTimeout
      let expiration := now + t
      let p2 := { p1 with requests := heapPush p1.requests (expiration, rid) }
      (.enqueued expiration, updateStateInLock opts now p2, true)

/-- SpecificPool::tryGetConnection: nothing is handed out while requests
are outstanding. -/
def tryGetConnection (opts : Options) (now : Nat) (p : SpecificPool) :
    Option Conn × SpecificPool :=
  if p.state = .kInShutdown then (none, p)
  else if p.requests.length ≠ 0 then (none, p)
  else
    match tryGetInternal p with
    | (c, p1) => (c, updateStateInLock opts now p1)

/-- The per-iteration target of SpecificPool::spawnConnections:
max(minConns, min(requests + checkedOut, maxConnections)). -/
def spawnTarget (opts : Options) (minConns : Nat) (p : SpecificPool) : Nat :=
  max minConns (min (p.requests.length + p.checkedOutPool.length) opts.maxConnections)

/-- A connection as constructed by factory->makeConnection with the
pool's current generation; the created counter serves as its identity. -/
def mkConn (gen : Nat) (idSeed : Nat) : Conn :=
  { id := idSeed
    gen := gen
    status := kConnectionStateUnknown
    lastUsed := 0
    healthy := true
    timerExpiresAt := none }

/-- The while loop of SpecificPool::spawnConnections: while not shutting
down, open connections below target, and processing below maxConnecting,
construct a connection into processing (its setup completion arrives later
through finishRefresh). -/
def spawnLoop (opts : Options) (minConns : Nat) : Nat → SpecificPool → SpecificPool
  | 0, p => p
  | fuel + 1, p =>
    if p.state ≠ .kInShutdown ∧ openConnections p < spawnTarget opts minConns p ∧
        p.processingPool.length < opts.maxConnecting then
      spawnLoop opts minConns fuel
        { p with
          processingPool := p.processingPool ++ [mkConn p.generation p.created]
          created := p.created + 1 }
    else p

/-- SpecificPool::spawnConnections. The target bounds the number of
iterations, so it also serves as fuel. -/
def spawnConnections (opts : Options) (minConns : Nat) (p : SpecificPool) : SpecificPool :=
  spawnLoop opts minConns (spawnTarget opts minConns p) p

/-- SpecificPool::updateController, the active minimum form: fold a max
of the in-use counts of every pool in the club over defaultMinConns. -/
def updateController (club : Club) : Club :=
  { club with
    minConns := club.pools.foldl (fun m p => max m (inUseConnections p)) club.defaultMinConns }

/-- The fulfillment loop of SpecificPool::fulfillRequests: while requests
are pending and a healthy ready connection exists, pop the front (earliest
deadline) request and emplace the connection into its promise. Returns the
pool and the fulfilled (request id, connection) pairs in order. -/
def fulfillLoop (opts : Options) (now : Nat) : Nat → SpecificPool → SpecificPool × List (Nat × Conn)
  | 0, p => (p, [])
  | fuel + 1, p =>
    if p.requests.isEmpty then (p, [])
    else
      match tryGetInternal p with
      | (none, p1) => (p1, [])
      | (some c, p1) =>
        let req := heapFront p1.requests
        let p2 := updateStateInLock opts now { p1 with requests := heapPop p1.requests }
        let (p3, rest) := fulfillLoop opts now fuel p2
        (p3, (req.2, c) :: rest)

/-- SpecificPool::fulfillRequests: run the fulfillment loop on pool i,
update the club controller, then spawn connections on every pool in the
club. -/
def fulfillRequests (opts : Options) (now : Nat) (club : Club) (i : Nat) : Club :=
  let p := club.getPool i
  let p1 := (fulfillLoop opts now p.requests.length p).1
  let club1 := updateController (club.setPool i p1)
  { club1 with pools := club1.pools.map (spawnConnections opts club1.minConns) }

/-- SpecificPool::addToReady: insert the connection at the MRU end of the
ready pool with a refreshRequirement timeout armed, then fulfill
requests. -/
def addToReady (opts : Options) (now : Nat) (club : Club) (i : Nat) (conn : Conn) : Club :=
  let c := { conn with timerExpiresAt := some (now + opts.refreshRequirement) }
  let p := club.getPool i
  let club1 := club.setPool i { p with ready := c :: p.ready }
  fulfillRequests opts now club1 i

/-- SpecificPool::returnConnection, reached from the handle deleter via
the executor. Stale generation or a failed status drops the connection;
a connection idle past refreshRequirement is dropped when the pool meets
minConns and otherwise moved to processing for a refresh (whose completion
arrives through finishRefresh); a fresh connection goes back to ready. -/
def returnConnection (opts : Options) (now : Nat) (club : Club) (i : Nat) (cid : Nat) : Club :=
  let p := club.getPool i
  match takeFromPool p.checkedOutPool cid with
  | (none, _) => club
  | (some conn, rest) =>
    let needsRefreshTP := conn.lastUsed + opts.refreshRequirement
    let p1 := updateStateInLock opts now { p with checkedOutPool := rest }
    if conn.gen ≠ p1.generation then club.setPool i p1
    else if conn.status.isOK = false then club.setPool i p1
    else if needsRefreshTP ≤ now then
      if p1.ready.length + p1.processingPool.length + p1.checkedOutPool.length ≥
          club.minConns then club.setPool i p1
      else
        let p2 := { p1 with processingPool := p1.processingPool ++ [conn] }
        club.setPool i (updateStateInLock opts now p2)
    else
      let club1 := addToReady opts now (club.setPool i p1) i conn
      club1.setPool i (updateStateInLock opts now (club1.getPool i))

/-- SpecificPool::processFailure on one pool: bump the generation, clear
ready, migrate processing into droppedProcessing (dropping outright in
shutdown), and swap out the request vector. Returns the pool and the
(request id, error) pairs failed, in vector order. -/
def processFailure (opts : Options) (now : Nat) (e : ErrorCode) (p : SpecificPool) :
    SpecificPool × List (Nat × ErrorCode) :=
  let p1 := { p with generation := p.generation + 1, ready := [] }
  let dropped :=
    if p1.state ≠ .kInShutdown then p1.droppedProcessingPool ++ p1.processingPool
    else p1.droppedProcessingPool
  let p2 := { p1 with droppedProcessingPool := dropped, processingPool := [] }
  let failed := p2.requests.map (fun r => (r.2, e))
  let p3 := updateStateInLock opts now { p2 with requests := [] }
  (p3, failed)

/-- SpecificPool::triggerShutdown: mark kInShutdown, clear
droppedProcessing, then run processFailure with the given status. -/
def triggerShutdown (opts : Options) (now : Nat) (e : ErrorCode) (p : SpecificPool) :
    SpecificPool × List (Nat × ErrorCode) :=
  processFailure opts now e { p with state := .kInShutdown, droppedProcessingPool := [] }

/-- SpecificPool::finishRefresh, the shared completion of setup and
refresh: remove the connection from processing (or droppedProcessing);
drop it in shutdown; on OK with a current generation move it to ready
(which fulfills requests); on a stale generation or a
NetworkInterfaceExceededTimeLimit drop just this connection and run a
replacement spawn pass (the spawn guard); on any other error cascade
through processFailure. Also returns the failed (request id, error)
pairs. -/
def finishRefresh (opts : Options) (now : Nat) (club : Club) (i : Nat) (cid : Nat)
    (status : Status) : Club × List (Nat × ErrorCode) :=
  let p := club.getPool i
  match takeFromProcessingPool p cid with
  | (connOpt, p1) =>
    if p1.state = .kInShutdown then (club.setPool i p1, [])
    else
      match connOpt, status with
      | none, _ => (club.setPool i p1, [])
      | some conn, .ok =>
        if conn.gen ≠ p1.generation then
          (club.setPool i (spawnConnections opts club.minConns p1), [])
        else
          (addToReady opts now (club.setPool i p1) i conn, [])
      | some _, .err .networkInterfaceExceededTimeLimit =>
        (club.setPool i (spawnConnections opts club.minConns p1), [])
      | some _, .err e =>
        match processFailure opts now e p1 with
        | (p2, failed) => (club.setPool i p2, failed)

/-- The body of the request timer callback set by updateStateInLock: pop
every request whose deadline has passed and fail it with
NetworkInterfaceExceededTimeLimit. -/
def requestTimerLoop (now : Nat) : Nat → List Req → List Req × List (Nat × ErrorCode)
  | 0, l => (l, [])
  | fuel + 1, l =>
    match l with
    | [] => ([], [])
    | x :: _ =>
      if x.1 ≤ now then
        let res := requestTimerLoop now fuel (heapPop l)
        (res.1, (x.2, ErrorCode.networkInterfaceExceededTimeLimit) :: res.2)
      else (l, [])

/-- The request timer callback: fail timed-out requests, then update the
pool state. -/
def requestTimerFire (opts : Options) (now : Nat) (p : SpecificPool) :
    SpecificPool × List (Nat × ErrorCode) :=
  match requestTimerLoop now p.requests.length p.requests with
  | (reqs, failed) => (updateStateInLock opts now { p with requests := reqs }, failed)

/-- The refresh timer callback armed in addToReady: if the connection is
still in the ready pool and the pool is not shutting down, briefly check
it out, mark it successful, and funnel it through returnConnection so the
refresh logic there fires. -/
def refreshTimerFire (opts : Options) (now : Nat) (club : Club) (i : Nat) (cid : Nat) : Club :=
  let p := club.getPool i
  match takeFromPool p.ready cid with
  | (none, _) => club
  | (some conn, rest) =>
    let p1 := { p with ready := rest }
    if p1.state = .kInShutdown then club.setPool i p1
    else
      let p2 := { p1 with checkedOutPool := conn.indicateSuccess :: p1.checkedOutPool }
      returnConnection opts now (club.setPool i p2) i cid

/-- ConnectionPool::handlePrimary restricted to one club (the club of the
given replica set name): when the recorded primary changes, record it and
run updateController through the pool named by the new primary, found by
_tryGetPool in the parent map. The source dereferences that pool without a
null check, so a missing pool is a crash, modelled as none. -/
def handlePrimary (club : Club) (host : Nat) : Option Club :=
  if club.primary = some host then some club
  else
    let club1 := { club with primary := some host }
    match club1.pools.findIdx? (fun p => p.hostId = host) with
    | none => none
    | some _ => some (updateController club1)

/-! ### The transition system

A Sys is one club of pools together with the clock and the executor's
queue of scheduled spawnConnections tasks (each task names the pool it
acts on). Step transitions are the entry points and callbacks of the
source; each guard states the condition under which the corresponding
callback can run. -/

/-- The whole-system state: clock, the club, and the pool indices with a
scheduled spawnConnections executor task. -/
structure Sys where
  clock : Nat
  club : Club
  tasks : List Nat
deriving DecidableEq, Repr

/-- The system right after the first getConnection call lazily constructs
the pool for one endpoint: a fresh pool in a fresh anonymous club
(resetController), whose defaultMinConns comes from the options and whose
minConns starts at the PoolClub default of zero. -/
def initSys (opts : Options) (host : Nat) : Sys :=
  { clock := 0
    club :=
      { minConns := 0
        defaultMinConns := opts.minConnections
        primary := none
        pools := [freshPool host] }
    tasks := [] }

/-- A ConnectionPool::get call on pool i. -/
def getSys (opts : Options) (i : Nat) (timeout : Int) (rid : Nat) (s : Sys) : Sys :=
  match getConnection opts s.clock timeout rid (s.club.getPool i) with
  | (_, p1, sched) =>
    { s with
      club := s.club.setPool i p1
      tasks := if sched then i :: s.tasks else s.tasks }

/-- The executor runs a scheduled spawnConnections task for pool i. -/
def runSpawnSys (opts : Options) (i : Nat) (s : Sys) : Sys :=
  { s with
    club := s.club.setPool i (spawnConnections opts s.club.minConns (s.club.getPool i))
    tasks := s.tasks.erase i }

/-- A setup or refresh completion arrives for connection cid of pool i. -/
def finishSetupSys (opts : Options) (i : Nat) (cid : Nat) (st : Status) (s : Sys) : Sys :=
  { s with club := (finishRefresh opts s.clock s.club i cid st).1 }

/-- The caller holding connection cid calls indicateSuccess on it. -/
def indicateSuccessSys (i : Nat) (cid : Nat) (s : Sys) : Sys :=
  let p := s.club.getPool i
  { s with
    club := s.club.setPool i
      { p with
        checkedOutPool := p.checkedOutPool.map fun c =>
          if c.id = cid then c.indicateSuccess else c } }

/-- The caller holding connection cid calls indicateUsed on it. -/
def indicateUsedSys (i : Nat) (cid : Nat) (s : Sys) : Sys :=
  let p := s.club.getPool i
  { s with
    club := s.club.setPool i
      { p with
        checkedOutPool := p.checkedOutPool.map fun c =>
          if c.id = cid then c.indicateUsed s.clock else c } }

/-- The caller drops the handle of connection cid; the deleter posts
returnConnection through the executor. -/
def retSys (opts : Options) (i : Nat) (cid : Nat) (s : Sys) : Sys :=
  { s with club := returnConnection opts s.clock s.club i cid }

/-- The refresh timer of ready connection cid fires. -/
def refreshFireSys (opts : Options) (i : Nat) (cid : Nat) (s : Sys) : Sys :=
  { s with club := refreshTimerFire opts s.clock s.club i cid }

/-- The request deadline timer of pool i fires. -/
def requestTimerFireSys (opts : Options) (i : Nat) (s : Sys) : Sys :=
  { s with
    club := s.club.setPool i (requestTimerFire opts s.clock (s.club.getPool i)).1 }

/-- The labelled transitions of the pool system. Guards mirror the
conditions under which each entry point or callback can run in the
source: getConnection requires a live listed pool (the source fires a
fatal invariant on a shutdown pool); callbacks require the connection to
be in the container that owns its pending completion; timers require
their expiration to have passed. -/
inductive Step (opts : Options) : Sys → Sys → Prop
  | tick (s : Sys) (t : Nat) :
      s.clock ≤ t → Step opts s { s with clock := t }
  | get (s : Sys) (i : Nat) (timeout : Int) (rid : Nat) :
      i < s.club.pools.length →
      (s.club.getPool i).state ≠ .kInShutdown →
      (s.club.getPool i).delisted = false →
      Step opts s (getSys opts i timeout rid s)
  | runSpawn (s : Sys) (i : Nat) :
      i ∈ s.tasks → Step opts s (runSpawnSys opts i s)
  | finishSetup (s : Sys) (i : Nat) (cid : Nat) (st : Status) :
      i < s.club.pools.length →
      cid ∈ ((s.club.getPool i).processingPool ++
        (s.club.getPool i).droppedProcessingPool).map Conn.id →
      Step opts s (finishSetupSys opts i cid st s)
  | indicateSuccess (s : Sys) (i : Nat) (cid : Nat) :
      cid ∈ (s.club.getPool i).checkedOutPool.map Conn.id →
      Step opts s (indicateSuccessSys i cid s)
  | indicateUsed (s : Sys) (i : Nat) (cid : Nat) :
      cid ∈ ((s.club.getPool i).checkedOutPool.filter
        (fun c => c.status.isOK ∨ c.status = kConnectionStateUnknown)).map Conn.id →
      Step opts s (indicateUsedSys i cid s)
  | ret (s : Sys) (i : Nat) (cid : Nat) :
      cid ∈ (s.club.getPool i).checkedOutPool.map Conn.id →
      Step opts s (retSys opts i cid s)
  | refreshFire (s : Sys) (i : Nat) (cid : Nat) (t : Nat) :
      some t ∈ ((s.club.getPool i).ready.filter (fun c => c.id = cid)).map
        Conn.timerExpiresAt →
      t ≤ s.clock →
      Step opts s (refreshFireSys opts i cid s)
  | requestTimerFire (s : Sys) (i : Nat) :
      i < s.club.pools.length →
      (s.club.getPool i).state = .kRunning →
      (s.club.getPool i).requests ≠ [] →
      (s.club.getPool i).requestTimerExpiration ≤ s.clock →
      Step opts s (requestTimerFireSys opts i s)

/-- Reachability of a system state from the lazily created single-pool
system under the step relation. -/
def Reach (opts : Options) (host : Nat) (s : Sys) : Prop :=
  Relation.ReflTransGen (Step opts) (initSys opts host) s

/-! ### Parameter loading

ShardingTaskExecutorParameters::load from
src/mongo/s/sharding_task_executor_parameters.cpp. The three values are
C++ ints in milliseconds, so they are embedded as Int. -/

/-- ShardingTaskExecutorParameters::load restricted to the three timing
parameters: if refreshRequirement ≤ refreshTimeout, lower refreshTimeout
to refreshRequirement - 1; then if
hostTimeout ≤ refreshRequirement + refreshTimeout, raise hostTimeout to
refreshRequirement + refreshTimeout + 1. Returns the stored triple
(refreshRequirement, refreshTimeout, hostTimeout). -/
def loadParams (refreshRequirement refreshTimeout hostTimeout : Int) : Int × Int × Int :=
  let refreshTimeout1 :=
    if refreshRequirement ≤ refreshTimeout then refreshRequirement - 1 else refreshTimeout
  let hostTimeout1 :=
    if hostTimeout ≤ refreshRequirement + refreshTimeout1 then
      refreshRequirement + refreshTimeout1 + 1
    else hostTimeout
  (refreshRequirement, refreshTimeout1, hostTimeout1)

/-! ### Concrete executions used by the counterexamples -/

/-- Options with maxConcurrentConnecting 1 and a minimum above the
current open count, driving the counterexample to claim C1. -/
def optsC1 : Options :=
  { minConnections := 3
    maxConnections := 10
    maxConnecting := 1
    refreshTimeout := 20
    refreshRequirement := 60
    hostTimeout := 300 }

def c1s0 : Sys := initSys optsC1 0
def c1s1 : Sys := getSys optsC1 0 5 0 c1s0
def c1s2 : Sys := runSpawnSys optsC1 0 c1s1
def c1s3 : Sys := finishSetupSys optsC1 0 0 .ok c1s2
def c1s4 : Sys := indicateSuccessSys 0 0 c1s3
def c1s5 : Sys := { c1s4 with clock := 60 }
def c1s6 : Sys := retSys optsC1 0 0 c1s5

/-- Options whose minimum connection count exceeds maxConnections,
driving the counterexample to claim C3. -/
def optsC3 : Options :=
  { minConnections := 5
    maxConnections := 2
    maxConnecting := 100
    refreshTimeout := 20
    refreshRequirement := 60
    hostTimeout := 300 }

def c3s0 : Sys := initSys optsC3 0
def c3s1 : Sys := getSys optsC3 0 5 0 c3s0
def c3s2 : Sys := runSpawnSys optsC3 0 c3s1
def c3s3 : Sys := finishSetupSys optsC3 0 0 .ok c3s2

/-- The behavior claim C4 asserts of handlePrimary, written from the
spec's words so it can be compared with the translation of the source:
when the primary changes, record it and trigger a spawn pass on the pool
named by the endpoint, creating that pool when it does not exist yet;
when the primary is unchanged, do nothing. -/
def handlePrimaryClaimed (opts : Options) (club : Club) (host : Nat) : Club :=
  if club.primary = some host then club
  else
    let club1 := { club with primary := some host }
    match club1.pools.findIdx? (fun p => p.hostId = host) with
    | some i => club1.setPool i (spawnConnections opts club1.minConns (club1.getPool i))
    | none =>
      { club1 with
        pools := club1.pools ++ [spawnConnections opts club1.minConns (freshPool host)] }

/-- A pool for endpoint 7 with one pending request and nothing open: a
spawn pass on it would create a connection. -/
def poolC4 : SpecificPool := { freshPool 7 with requests := [(5, 0)] }

/-- A club that already contains poolC4. -/
def clubC4 : Club :=
  { minConns := 1, defaultMinConns := 1, primary := none, pools := [poolC4] }

/-- A club with no pool for the endpoint being promoted to primary. -/
def clubC4none : Club :=
  { minConns := 1, defaultMinConns := 1, primary := none, pools := [] }

/-- A healthy ready connection used by the C7 counterexample. -/
def connC7 : Conn :=
  { id := 0, gen := 0, status := .ok, lastUsed := 0, healthy := true,
    timerExpiresAt := some 60 }

/-- A pool holding one healthy ready connection while a request is still
pending, as arises in the window fulfillRequests opens when it drops the
lock to complete a promise. -/
def poolC7 : SpecificPool :=
  { freshPool 3 with ready := [connC7], requests := [(5, 1)] }

/-- The connection connC7 as it is handed out: refresh timer cancelled
and status reset to Unknown. -/
def connC7out : Conn :=
  { connC7 with timerExpiresAt := none, status := kConnectionStateUnknown }

/-- poolC7 after its ready connection was checked out. -/
def poolC7out : SpecificPool :=
  { poolC7 with ready := [], checkedOutPool := [connC7out] }

/-- A pool in shutdown that is still listed in the parent map because a
processing connection has not drained yet. -/
def poolC6 : SpecificPool :=
  { freshPool 2 with state := .kInShutdown, processingPool := [mkConn 0 0] }

/-- A running pool with two pending requests in heap layout. -/
def poolC6run : SpecificPool := { freshPool 2 with requests := [(5, 0), (7, 1)] }

/-- A healthy checked-in connection with an armed refresh timer. -/
def connC2 : Conn :=
  { id := 0, gen := 0, status := .ok, lastUsed := 0, healthy := true,
    timerExpiresAt := some 60 }

/-- A pool with one ready connection and two pending requests. -/
def poolC2 : SpecificPool :=
  { freshPool 6 with ready := [connC2], requests := [(3, 0), (9, 1)] }

/-- A pool with one connection mid-setup and a pending request. -/
def poolC8 : SpecificPool :=
  { freshPool 4 with processingPool := [mkConn 0 0], requests := [(5, 0)] }

/-- A single-pool club around poolC8. -/
def clubC8 : Club :=
  { minConns := 0, defaultMinConns := 0, primary := none, pools := [poolC8] }

/-- First member of the C9 club: one ready connection and one pending
request. -/
def poolC9a : SpecificPool :=
  { freshPool 1 with ready := [connC2], requests := [(4, 0)] }

/-- Second member of the C9 club: three connections checked out. -/
def poolC9b : SpecificPool :=
  { freshPool 2 with checkedOutPool := [mkConn 0 0, mkConn 0 1, mkConn 0 2] }

/-- A two-pool club: after a fulfillment pass on pool 0 the club minimum
must rise to the three checkouts of pool 1. -/
def clubC9 : Club :=
  { minConns := 0, defaultMinConns := 2, primary := none, pools := [poolC9a, poolC9b] }

/-- An unhealthy ready connection with an armed refresh timer. -/
def connC10bad : Conn :=
  { id := 8, gen := 0, status := .ok, lastUsed := 0, healthy := false,
    timerExpiresAt := some 60 }

/-- A pool whose MRU ready connection is unhealthy while the next one is
healthy. -/
def poolC10 : SpecificPool :=
  { freshPool 5 with ready := [connC10bad, connC2] }

/-- The C1 trace is an execution of the system: a get enqueues a request
and schedules a spawn; the spawn pass creates connection 0; its setup
completes, the request is fulfilled with it, and the club minimum rises
to 3, so a second connection is spawned up to maxConnecting = 1; the
caller marks connection 0 successful; sixty milliseconds later the handle
is dropped and returnConnection moves connection 0 into processing for a
refresh, with no check of maxConnecting. -/
theorem c1Reach : Reach optsC1 0 c1s6 := by
  have h1 : Step optsC1 c1s0 c1s1 := Step.get c1s0 0 5 0 (by decide) (by decide) (by decide)
  have h2 : Step optsC1 c1s1 c1s2 := Step.runSpawn c1s1 0 (by decide)
  have h3 : Step optsC1 c1s2 c1s3 := Step.finishSetup c1s2 0 0 .ok (by decide) (by decide)
  have h4 : Step optsC1 c1s3 c1s4 := Step.indicateSuccess c1s3 0 0 (by decide)
  have h5 : Step optsC1 c1s4 c1s5 := Step.tick c1s4 60 (by decide)
  have h6 : Step optsC1 c1s5 c1s6 := Step.ret c1s5 0 0 (by decide)
  exact .tail (.tail (.tail (.tail (.tail (.tail .refl h1) h2) h3) h4) h5) h6

/-- The C3 trace: a get enqueues a request and schedules a spawn; the
spawn pass creates connection 0; its setup completes, the request is
fulfilled, the club minimum rises to minConnections = 5, and the spawn
pass run from fulfillRequests fills the pool to five open connections,
past maxConnections = 2. -/
theorem c3Reach : Reach optsC3 0 c3s3 := by
  have h1 : Step optsC3 c3s0 c3s1 := Step.get c3s0 0 5 0 (by decide) (by decide) (by decide)
  have h2 : Step optsC3 c3s1 c3s2 := Step.runSpawn c3s1 0 (by decide)
  have h3 : Step optsC3 c3s2 c3s3 := Step.finishSetup c3s2 0 0 .ok (by decide) (by decide)
  exact .tail (.tail (.tail .refl h1) h2) h3

/-! ### Heap lemmas

Correctness of the embedded std::push_heap / std::pop_heap translations:
both preserve the binary-heap layout invariant, and under that invariant
the front of the request vector carries the earliest deadline. -/

theorem length_lswap (l : List Req) (i j : Nat) : (lswap l i j).length = l.length := by
  simp [lswap]

theorem keyAt_lswap_fst {l : List Req} {i j : Nat} (hi : i < l.length) (hne : i ≠ j) :
    keyAt (lswap l i j) i = keyAt l j := by
  unfold keyAt lswap
  rw [List.getD_eq_getElem?_getD, List.getElem?_set_ne (Ne.symm hne),
    List.getElem?_set_self hi, List.getD_eq_getElem?_getD]
  rfl

theorem keyAt_lswap_snd {l : List Req} {i j : Nat} (hj : j < l.length) :
    keyAt (lswap l i j) j = keyAt l i := by
  unfold keyAt lswap
  rw [List.getD_eq_getElem?_getD, List.getElem?_set_self (by simpa using hj),
    List.getD_eq_getElem?_getD]
  rfl

theorem keyAt_lswap_other {l : List Req} {i j k : Nat} (h1 : k ≠ i) (h2 : k ≠ j) :
    keyAt (lswap l i j) k = keyAt l k := by
  unfold keyAt lswap
  rw [List.getD_eq_getElem?_getD, List.getElem?_set_ne (Ne.symm h2),
    List.getElem?_set_ne (Ne.symm h1), List.getD_eq_getElem?_getD]

theorem keyAt_append_lt {l : List Req} {x : Req} {m : Nat} (h : m < l.length) :
    keyAt (l ++ [x]) m = keyAt l m := by
  unfold keyAt
  rw [List.getD_eq_getElem?_getD, List.getElem?_append, if_pos h,
    List.getD_eq_getElem?_getD]

theorem keyAt_take {l : List Req} {k m : Nat} (h : m < k) :
    keyAt (l.take k) m = keyAt l m := by
  unfold keyAt
  rw [List.getD_eq_getElem?_getD, List.getElem?_take, if_pos h,
    List.getD_eq_getElem?_getD]

theorem almostUp_swap {l : List Req} {i : Nat} (hi0 : 0 < i) (hil : i < l.length)
    (hlt : keyAt l i < keyAt l ((i - 1) / 2)) (h : AlmostUp l i) :
    AlmostUp (lswap l ((i - 1) / 2) i) ((i - 1) / 2) := by
  obtain ⟨h1, h2⟩ := h
  have hpi : (i - 1) / 2 < i := by omega
  have hpl : (i - 1) / 2 < l.length := lt_trans hpi hil
  have hne : (i - 1) / 2 ≠ i := Nat.ne_of_lt hpi
  constructor
  · intro j hj hj0 hjp
    rw [length_lswap] at hj
    by_cases hji : j = i
    · subst hji
      rw [keyAt_lswap_snd hil, keyAt_lswap_fst hpl hne]
      omega
    · rw [keyAt_lswap_other hjp hji]
      by_cases hpj : (j - 1) / 2 = i
      · rw [hpj, keyAt_lswap_snd hil]
        have hchild : j = 2 * i + 1 ∨ j = 2 * i + 2 := by omega
        exact h2 j hj hi0 hchild
      · by_cases hpj2 : (j - 1) / 2 = (i - 1) / 2
        · rw [hpj2, keyAt_lswap_fst hpl hne]
          have := h1 j hj hj0 hji
          rw [hpj2] at this
          omega
        · rw [keyAt_lswap_other hpj2 hpj]
          exact h1 j hj hj0 hji
  · intro c hc hp0 hchild
    rw [length_lswap] at hc
    have hgp : ((i - 1) / 2 - 1) / 2 < (i - 1) / 2 := by omega
    have hgne1 : ((i - 1) / 2 - 1) / 2 ≠ (i - 1) / 2 := Nat.ne_of_lt hgp
    have hgne2 : ((i - 1) / 2 - 1) / 2 ≠ i := by omega
    rw [keyAt_lswap_other hgne1 hgne2]
    have hpp := h1 ((i - 1) / 2) hpl hp0 hne
    by_cases hci : c = i
    · subst hci
      rw [keyAt_lswap_snd hil]
      exact hpp
    · have hcp : c ≠ (i - 1) / 2 := by omega
      rw [keyAt_lswap_other hcp hci]
      have hcpar : (c - 1) / 2 = (i - 1) / 2 := by omega
      have := h1 c hc (by omega) hci
      rw [hcpar] at this
      omega

theorem siftUp_heapProp :
    ∀ fuel l i, i < fuel → i < List.length l → AlmostUp l i → HeapProp (siftUp fuel l i)
  | 0, _, _, hfi, _, _ => absurd hfi (Nat.not_lt_zero _)
  | fuel + 1, l, i, hfi, hil, h => by
    unfold siftUp
    by_cases hi0 : i = 0
    · rw [if_pos hi0]
      intro j hj hj0
      exact h.1 j hj hj0 (by omega)
    · rw [if_neg hi0]
      by_cases hlt : keyAt l i < keyAt l ((i - 1) / 2)
      · rw [if_pos hlt]
        have hpi : (i - 1) / 2 < i := by omega
        exact siftUp_heapProp fuel _ _ (by omega)
          (by rw [length_lswap]; exact lt_trans hpi hil)
          (almostUp_swap (by omega) hil hlt h)
      · rw [if_neg hlt]
        intro j hj hj0
        by_cases hji : j = i
        · subst hji; omega
        · exact h.1 j hj hj0 hji

theorem almostUp_append {l : List Req} (x : Req) (h : HeapProp l) :
    AlmostUp (l ++ [x]) l.length := by
  constructor
  · intro j hj hj0 hjn
    rw [List.length_append, List.length_singleton] at hj
    have hjl : j < l.length := by omega
    rw [keyAt_append_lt hjl, keyAt_append_lt (by omega)]
    exact h j hjl hj0
  · intro c hc _ hchild
    rw [List.length_append, List.length_singleton] at hc
    omega

/-- Pushing onto the request heap preserves the heap layout. -/
theorem heapProp_heapPush {l : List Req} (x : Req) (h : HeapProp l) :
    HeapProp (heapPush l x) := by
  unfold heapPush
  exact siftUp_heapProp (l.length + 1) (l ++ [x]) l.length (by omega)
    (by simp) (almostUp_append x h)

theorem almostDown_swap {l : List Req} {i c : Nat} (hcn : c < l.length)
    (hchild : c = 2 * i + 1 ∨ c = 2 * i + 2)
    (hmin : ∀ o, o < l.length → (o = 2 * i + 1 ∨ o = 2 * i + 2) → keyAt l c ≤ keyAt l o)
    (hlt : keyAt l c < keyAt l i) (h : AlmostDown l i) : AlmostDown (lswap l i c) c := by
  obtain ⟨h1, h2⟩ := h
  have hic : i < c := by omega
  have hin : i < l.length := lt_trans hic hcn
  have hne : i ≠ c := Nat.ne_of_lt hic
  constructor
  · intro j hj hj0 hjp
    rw [length_lswap] at hj
    by_cases hjc : j = c
    · have hpc : (j - 1) / 2 = i := by omega
      rw [hpc, keyAt_lswap_fst hin hne, hjc, keyAt_lswap_snd hcn]
      omega
    · by_cases hji : j = i
      · rw [hji]
        have hi0 : 0 < i := by omega
        rw [keyAt_lswap_other (by omega : (i - 1) / 2 ≠ i) (by omega : (i - 1) / 2 ≠ c),
          keyAt_lswap_fst hin hne]
        exact h2 c hcn hi0 hchild
      · rw [keyAt_lswap_other hji hjc]
        by_cases hpj : (j - 1) / 2 = i
        · rw [hpj, keyAt_lswap_fst hin hne]
          exact hmin j hj (by omega)
        · rw [keyAt_lswap_other hpj hjp]
          exact h1 j hj hj0 hpj
  · intro d hd hc0 hdchild
    rw [length_lswap] at hd
    have hpd : (c - 1) / 2 = i := by omega
    rw [hpd, keyAt_lswap_fst hin hne]
    have hdc : d ≠ c := by omega
    have hdi : d ≠ i := by omega
    rw [keyAt_lswap_other hdi hdc]
    have hdpar : (d - 1) / 2 = c := by omega
    have := h1 d hd (by omega) (by omega)
    rw [hdpar] at this
    exact this

theorem minChild_child (l : List Req) (i : Nat) :
    minChild l i = 2 * i + 1 ∨ minChild l i = 2 * i + 2 := by
  unfold minChild
  by_cases hcc : 2 * i + 2 < l.length ∧ keyAt l (2 * i + 2) < keyAt l (2 * i + 1)
  · rw [if_pos hcc]; omega
  · rw [if_neg hcc]; omega

theorem minChild_lt_length {l : List Req} {i : Nat} (hleaf : 2 * i + 1 < l.length) :
    minChild l i < l.length := by
  unfold minChild
  by_cases hcc : 2 * i + 2 < l.length ∧ keyAt l (2 * i + 2) < keyAt l (2 * i + 1)
  · rw [if_pos hcc]; exact hcc.1
  · rw [if_neg hcc]; exact hleaf

theorem minChild_min {l : List Req} {i : Nat} :
    ∀ o, o < l.length → (o = 2 * i + 1 ∨ o = 2 * i + 2) →
      keyAt l (minChild l i) ≤ keyAt l o := by
  intro o ho hoc
  unfold minChild
  by_cases hcc : 2 * i + 2 < l.length ∧ keyAt l (2 * i + 2) < keyAt l (2 * i + 1)
  · rw [if_pos hcc]
    rcases hoc with rfl | rfl
    · omega
    · omega
  · rw [if_neg hcc]
    rcases hoc with rfl | rfl
    · omega
    · push_neg at hcc
      have := hcc ho
      omega

theorem siftDown_heapProp :
    ∀ fuel l i, List.length l ≤ fuel + i → AlmostDown l i → HeapProp (siftDown l i fuel)
  | 0, l, i, hfi, h => by
    have hz : siftDown l i 0 = l := rfl
    rw [hz]
    intro j hj hj0
    exact h.1 j hj hj0 (by omega)
  | fuel + 1, l, i, hfi, h => by
    unfold siftDown
    by_cases hleaf : 2 * i + 1 ≥ l.length
    · rw [if_pos hleaf]
      intro j hj hj0
      exact h.1 j hj hj0 (by omega)
    · rw [if_neg hleaf]
      push_neg at hleaf
      have hchild := minChild_child l i
      have hcn := minChild_lt_length hleaf
      by_cases hlt : keyAt l (minChild l i) < keyAt l i
      · rw [if_pos hlt]
        exact siftDown_heapProp fuel _ (minChild l i)
          (by rw [length_lswap]; omega)
          (almostDown_swap hcn hchild minChild_min hlt h)
      · rw [if_neg hlt]
        intro j hj hj0
        by_cases hpj : (j - 1) / 2 = i
        · have hjchild : j = 2 * i + 1 ∨ j = 2 * i + 2 := by omega
          rw [hpj]
          have := minChild_min j hj hjchild
          omega
        · exact h.1 j hj hj0 hpj

/-- Popping the front of the request heap preserves the heap layout. -/
theorem heapProp_heapPop {l : List Req} (h : HeapProp l) : HeapProp (heapPop l) := by
  match l, h with
  | [], _ => intro j hj hj0; simp [heapPop] at hj
  | [x], _ => intro j hj hj0; simp [heapPop] at hj
  | x :: y :: rest, h =>
    show HeapProp (siftDown _ 0 _)
    have hlen : (x :: y :: rest).length = rest.length + 2 := by simp
    apply siftDown_heapProp
    · rw [List.length_take, length_lswap]
      simp
    · constructor
      · intro j hj hj0 hjp
        rw [List.length_take, length_lswap] at hj
        have hjlen : j < (x :: y :: rest).length - 1 := by omega
        have hplen : (j - 1) / 2 < (x :: y :: rest).length - 1 := by omega
        rw [keyAt_take hjlen, keyAt_take hplen,
          keyAt_lswap_other (by omega : j ≠ 0) (by omega : j ≠ (x :: y :: rest).length - 1),
          keyAt_lswap_other hjp (by omega : (j - 1) / 2 ≠ (x :: y :: rest).length - 1)]
        exact h j (by omega) hj0
      · intro c hc hc0
        omega

/-- Under the heap layout the front of the request vector has the
smallest deadline of any index. -/
theorem heapProp_root_min {l : List Req} (h : HeapProp l) :
    ∀ j, j < l.length → keyAt l 0 ≤ keyAt l j := by
  intro j
  induction j using Nat.strong_induction_on with
  | _ j ih =>
    intro hj
    by_cases hj0 : j = 0
    · subst hj0; exact le_refl _
    · have hpar : (j - 1) / 2 < j := by omega
      exact le_trans (ih _ hpar (lt_trans hpar hj)) (h j hj (by omega))

/-- Under the heap layout, _requests.front() is an earliest-deadline
pending request. -/
theorem heapFront_min {l : List Req} (h : HeapProp l) :
    ∀ r ∈ l, (heapFront l).1 ≤ r.1 := by
  intro r hr
  obtain ⟨j, hj, rfl⟩ := List.mem_iff_getElem.mp hr
  have hfront : (heapFront l).1 = keyAt l 0 := by
    cases l with
    | nil => simp at hj
    | cons a t => rfl
  have hkey : keyAt l j = l[j].1 := by
    unfold keyAt
    rw [List.getD_eq_getElem?_getD, List.getElem?_eq_getElem hj]
    rfl
  rw [hfront, ← hkey]
  exact heapProp_root_min h j hj

/-! ### Spawn pass lemmas -/

theorem spawnLoop_processing_le (opts : Options) (minConns : Nat) :
    ∀ fuel p, p.processingPool.length ≤ opts.maxConnecting →
      (spawnLoop opts minConns fuel p).processingPool.length ≤ opts.maxConnecting
  | 0, _, h => h
  | fuel + 1, p, h => by
    unfold spawnLoop
    split_ifs with hc
    · obtain ⟨-, -, h3⟩ := hc
      apply spawnLoop_processing_le opts minConns fuel
      simp only [List.length_append, List.length_singleton]
      omega
    · exact h

theorem spawnLoop_open_le (opts : Options) (minConns : Nat)
    (hm : minConns ≤ opts.maxConnections) :
    ∀ fuel p, openConnections p ≤ opts.maxConnections →
      openConnections (spawnLoop opts minConns fuel p) ≤ opts.maxConnections
  | 0, _, h => h
  | fuel + 1, p, h => by
    unfold spawnLoop
    split_ifs with hc
    · obtain ⟨-, h2, -⟩ := hc
      apply spawnLoop_open_le opts minConns hm fuel
      have ht : spawnTarget opts minConns p ≤ opts.maxConnections :=
        Nat.max_le.mpr ⟨hm, Nat.min_le_right _ _⟩
      unfold openConnections at h2 ⊢
      simp only [List.length_append, List.length_singleton]
      omega
    · exact h

/-! ### Claim theorems -/

/-- Claim C1 counterexample: in the reachable state c1s6 (options with
maxConcurrentConnecting = 1), the processing container of the endpoint
pool holds two connections, because the refresh path of returnConnection
moved a returned connection into processing without checking
maxConcurrentConnecting. The claimed invariant
processing ≤ maxConcurrentConnecting is therefore violated in a reachable
state, and the refresh path of returnConnection does not preserve it. -/
theorem claimC1_counterexample :
    Reach optsC1 0 c1s6 ∧ optsC1.maxConnecting = 1 ∧
      (c1s6.club.getPool 0).processingPool.length = 2 :=
  ⟨c1Reach, by decide, by decide⟩

/-- Claim C1 amended: the spawn pass does preserve the bound: it
constructs a connection only while processing < maxConcurrentConnecting,
so a pool entering spawnConnections with
processing ≤ maxConcurrentConnecting leaves it that way. (The refresh
path of returnConnection inserts into processing without this check and
violates the bound, per the counterexample.) -/
theorem claimC1_amended (opts : Options) (minConns : Nat) (p : SpecificPool)
    (h : p.processingPool.length ≤ opts.maxConnecting) :
    (spawnConnections opts minConns p).processingPool.length ≤ opts.maxConnecting :=
  spawnLoop_processing_le opts minConns _ p h

/-- Claim C1 witness: the amended statement applied to a pool with two
pending requests under maxConcurrentConnecting = 1. -/
theorem claimC1_witness :
    (spawnConnections optsC1 0 poolC6run).processingPool.length ≤ optsC1.maxConnecting :=
  claimC1_amended optsC1 0 poolC6run (by decide)

/-- Claim C3 counterexample: in the reachable state c3s3 (options with
minConnections = 5 and maxConnections = 2), the endpoint pool has five
open connections: the spawn target max(minConns, min(pending + checkedOut,
maxConnections)) is not clamped to maxConnections, so once the club
minimum exceeds maxConnections the claimed invariant
ready + processing + checkedOut ≤ maxConnections is violated. -/
theorem claimC3_counterexample :
    Reach optsC3 0 c3s3 ∧ optsC3.maxConnections = 2 ∧
      openConnections (c3s3.club.getPool 0) = 5 :=
  ⟨c3Reach, by decide, by decide⟩

/-- Claim C3 amended: the spawn target is
max(minConns, min(pendingRequests + checkedOut, maxConnections)), with no
outer clamp to maxConnections; spawnConnections never constructs a
connection once the open count has reached that target, and it preserves
open ≤ maxConnections provided the club minimum does not exceed
maxConnections (when it does, the bound fails, per the counterexample). -/
theorem claimC3_amended (opts : Options) (minConns : Nat) (p : SpecificPool) :
    (spawnTarget opts minConns p ≤ openConnections p →
      spawnConnections opts minConns p = p) ∧
    (minConns ≤ opts.maxConnections →
      openConnections p ≤ opts.maxConnections →
      openConnections (spawnConnections opts minConns p) ≤ opts.maxConnections) := by
  constructor
  · intro hge
    unfold spawnConnections
    cases hfe : spawnTarget opts minConns p with
    | zero => rfl
    | succ n =>
      show spawnLoop opts minConns (n + 1) p = p
      unfold spawnLoop
      rw [if_neg]
      intro hcon
      exact absurd hcon.2.1 (Nat.not_lt.mpr hge)
  · intro hm h
    exact spawnLoop_open_le opts minConns hm _ p h

/-- Claim C3 witness: the amended statement applied to concrete pools:
a pool already at its target is left unchanged, and a pool spawning under
minConns = 3 ≤ maxConnections = 10 stays within maxConnections. -/
theorem claimC3_witness :
    spawnConnections optsC1 0 (freshPool 0) = freshPool 0 ∧
    openConnections (spawnConnections optsC1 3 poolC6run) ≤ optsC1.maxConnections :=
  ⟨(claimC3_amended optsC1 0 (freshPool 0)).1 (by decide),
   (claimC3_amended optsC1 3 poolC6run).2 (by decide) (by decide)⟩

/-- Claim C5 counterexample: the input triple refreshTimeout 5,
refreshRequirement 10, hostTimeout 12 satisfies the claimed ordering
refreshTimeout < refreshRequirement < hostTimeout, yet load changes it:
the stored hostTimeout becomes 16, because the constraint actually
enforced is refreshRequirement + refreshTimeout < hostTimeout. Moreover a
violated first constraint is repaired by lowering refreshTimeout to
refreshRequirement - 1, not by nudging the next value up by one:
loadParams 5 7 100 stores refreshTimeout 4. -/
theorem claimC5_counterexample :
    ((5 : Int) < 10 ∧ (10 : Int) < 12) ∧
    loadParams 10 5 12 ≠ (10, 5, 12) ∧
    loadParams 10 5 12 = (10, 5, 16) ∧
    loadParams 5 7 100 = (5, 4, 100) := by decide

/-- Claim C5 amended: at load time the constraints enforced are
refreshTimeout < refreshRequirement (repaired by lowering refreshTimeout
to refreshRequirement - 1, with a warning) and
refreshRequirement + refreshTimeout < hostTimeout (repaired by raising
hostTimeout to refreshRequirement + refreshTimeout + 1, with a warning);
a triple already satisfying both is stored unchanged, and every stored
triple satisfies both. -/
theorem claimC5_amended (rr rt ht : Int) :
    (rt < rr ∧ rr + rt < ht → loadParams rr rt ht = (rr, rt, ht)) ∧
    ((loadParams rr rt ht).2.1 < rr ∧
      rr + (loadParams rr rt ht).2.1 < (loadParams rr rt ht).2.2) := by
  unfold loadParams
  constructor
  · rintro ⟨h1, h2⟩
    simp only [if_neg (by omega : ¬rr ≤ rt)]
    simp only [if_neg (by omega : ¬ht ≤ rr + rt)]
  · split_ifs <;> constructor <;> simp <;> omega

/-- Claim C5 witness: the amended statement applied to the triple
refreshRequirement 10, refreshTimeout 5, hostTimeout 100, which satisfies
both constraints and is stored unchanged. -/
theorem claimC5_witness : loadParams 10 5 100 = (10, 5, 100) :=
  (claimC5_amended 10 5 100).1 (by decide)

/-! ### Field preservation lemmas for updateStateInLock and
tryGetInternal -/

theorem updateStateInLock_requests (opts : Options) (now : Nat) (p : SpecificPool) :
    (updateStateInLock opts now p).requests = p.requests := by
  unfold updateStateInLock
  split_ifs <;> rfl

theorem updateStateInLock_ready (opts : Options) (now : Nat) (p : SpecificPool) :
    (updateStateInLock opts now p).ready = p.ready := by
  unfold updateStateInLock
  split_ifs <;> rfl

theorem updateStateInLock_processing (opts : Options) (now : Nat) (p : SpecificPool) :
    (updateStateInLock opts now p).processingPool = p.processingPool := by
  unfold updateStateInLock
  split_ifs <;> rfl

theorem updateStateInLock_checkedOut (opts : Options) (now : Nat) (p : SpecificPool) :
    (updateStateInLock opts now p).checkedOutPool = p.checkedOutPool := by
  unfold updateStateInLock
  split_ifs <;> rfl

theorem updateStateInLock_generation (opts : Options) (now : Nat) (p : SpecificPool) :
    (updateStateInLock opts now p).generation = p.generation := by
  unfold updateStateInLock
  split_ifs <;> rfl

theorem updateStateInLock_state_shutdown {opts : Options} {now : Nat} {p : SpecificPool}
    (h : p.state = .kInShutdown) :
    (updateStateInLock opts now p).state = .kInShutdown := by
  unfold updateStateInLock
  rw [if_pos h]
  split_ifs <;> exact h

theorem tryGetInternal_requests (p : SpecificPool) :
    (tryGetInternal p).2.requests = p.requests := by
  unfold tryGetInternal
  rcases h : tryGetLoop p.ready with ⟨_ | c, rest⟩ <;> simp [h]

/-- Claim C4 counterexample: promoting endpoint 7 to primary of a club
whose pool for endpoint 7 has a pending request records the primary but
triggers no spawn pass: the pool still has zero created connections,
whereas the claimed behavior (spawn pass on the named pool) creates one.
Promoting endpoint 9, for which no pool exists, crashes on a null pool
(modelled as none) instead of handling the call. -/
theorem claimC4_counterexample :
    handlePrimary clubC4 7 ≠ some (handlePrimaryClaimed optsC1 clubC4 7) ∧
    Option.map (fun c => (c.getPool 0).created) (handlePrimary clubC4 7) = some 0 ∧
    ((handlePrimaryClaimed optsC1 clubC4 7).getPool 0).created = 1 ∧
    handlePrimary clubC4none 9 = none := by decide

/-- Claim C4 amended: when the recorded primary already names the
endpoint, handlePrimary does nothing; when it changes and a pool for the
endpoint exists, the new primary is recorded and updateController
recomputes the club minimum - no spawn pass runs and no pool changes;
when no pool for the endpoint exists, handlePrimary dereferences a null
pool (modelled as none). -/
theorem claimC4_amended (club : Club) (host : Nat) :
    (club.primary = some host → handlePrimary club host = some club) ∧
    (club.primary ≠ some host →
      (∀ i, club.pools.findIdx? (fun p => p.hostId = host) = some i →
        handlePrimary club host =
          some (updateController { club with primary := some host })) ∧
      (club.pools.findIdx? (fun p => p.hostId = host) = none →
        handlePrimary club host = none)) := by
  unfold handlePrimary
  constructor
  · intro h
    rw [if_pos h]
  · intro h
    rw [if_neg h]
    constructor
    · intro i hi
      simp only [hi]
    · intro hn
      simp only [hn]

/-- Claim C4 witness: the amended statement applied to the concrete
clubs: an existing pool, a missing pool, and an unchanged primary. -/
theorem claimC4_witness :
    handlePrimary clubC4 7 = some (updateController { clubC4 with primary := some 7 }) ∧
    handlePrimary clubC4none 9 = none ∧
    handlePrimary { clubC4 with primary := some 7 } 7 =
      some { clubC4 with primary := some 7 } :=
  ⟨((claimC4_amended clubC4 7).2 (by decide)).1 0 (by decide),
   ((claimC4_amended clubC4none 9).2 (by decide)).2 (by decide),
   (claimC4_amended { clubC4 with primary := some 7 } 7).1 (by decide)⟩

/-- Claim C6 counterexample: a get on a pool in InShutdown (still listed
because a processing connection has not drained) hits the fatal
invariant in getConnection, modelled as aborted: the request does not
fail with a ShutdownInProgress future, and nothing is enqueued. -/
theorem claimC6_counterexample :
    (getConnection optsC1 0 5 0 poolC6).1 = GetResult.aborted ∧
    (getConnection optsC1 0 5 0 poolC6).1 ≠
      GetResult.failedImmediately .shutdownInProgress ∧
    (getConnection optsC1 0 5 0 poolC6).2.1.requests = [] := by decide

/-- Claim C6 amended: a get on an InShutdown pool is a fatal invariant
failure (abort), not a ShutdownInProgress error future - the pool is
unchanged and nothing is enqueued; the requests pending at the moment
triggerShutdown fires are all failed with the shutdown status, the pool
afterwards holds no requests, and it stays in InShutdown. -/
theorem claimC6_amended (opts : Options) (now : Nat) (t : Int) (rid : Nat)
    (p : SpecificPool) (e : ErrorCode) :
    (p.state = .kInShutdown → getConnection opts now t rid p = (.aborted, p, false)) ∧
    (triggerShutdown opts now e p).2 = p.requests.map (fun r => (r.2, e)) ∧
    (triggerShutdown opts now e p).1.requests = [] ∧
    (triggerShutdown opts now e p).1.state = .kInShutdown := by
  refine ⟨?_, rfl, ?_, ?_⟩
  · intro h
    unfold getConnection
    rw [if_pos h]
  · simp only [triggerShutdown, processFailure, updateStateInLock_requests]
  · simp only [triggerShutdown, processFailure]
    exact updateStateInLock_state_shutdown rfl

/-- Claim C6 witness: the amended statement applied to the shutdown pool
poolC6 and to poolC6run with its two pending requests. -/
theorem claimC6_witness :
    getConnection optsC1 0 5 0 poolC6 = (.aborted, poolC6, false) ∧
    (triggerShutdown optsC1 0 .shutdownInProgress poolC6run).2 =
      [(0, ErrorCode.shutdownInProgress), (1, ErrorCode.shutdownInProgress)] :=
  ⟨(claimC6_amended optsC1 0 5 0 poolC6 .shutdownInProgress).1 (by decide),
   ((claimC6_amended optsC1 0 5 0 poolC6run .shutdownInProgress).2.1).trans (by decide)⟩

/-- Claim C7 counterexample: on a pool with one healthy ready connection
and a non-empty request queue, getConnection still hands the connection
out in an already-fulfilled future and leaves the queue untouched, while
the claim requires every call with a non-empty queue to be enqueued. -/
theorem claimC7_counterexample :
    poolC7.requests = [(5, 1)] ∧
    (getConnection optsC1 0 10 2 poolC7).1 = GetResult.ready connC7out ∧
    (getConnection optsC1 0 10 2 poolC7).2.1.requests = [(5, 1)] := by decide

/-- Claim C7 amended: getConnection (outside shutdown) returns an
already-fulfilled future exactly when tryGetInternal finds a healthy
ready connection, regardless of the request queue (the queue is not
touched, so in particular an empty queue stays empty); otherwise it
enqueues the request with deadline now + clamp(timeout) and schedules a
spawn pass on the executor. -/
theorem claimC7_amended (opts : Options) (now : Nat) (t : Int) (rid : Nat)
    (p : SpecificPool) (hs : p.state ≠ .kInShutdown) :
    (∀ c p1, tryGetInternal p = (some c, p1) →
      getConnection opts now t rid p = (.ready c, p1, false)) ∧
    (∀ p1, tryGetInternal p = (none, p1) →
      getConnection opts now t rid p =
        (.enqueued (now + clampTimeout t opts.refreshTimeout),
         updateStateInLock opts now
           { p1 with requests :=
              heapPush p1.requests (now + clampTimeout t opts.refreshTimeout, rid) },
         true)) ∧
    (tryGetInternal p).2.requests = p.requests := by
  refine ⟨?_, ?_, tryGetInternal_requests p⟩
  · intro c p1 h
    unfold getConnection
    rw [if_neg hs]
    simp only [h]
  · intro p1 h
    unfold getConnection
    rw [if_neg hs]
    simp only [h]

/-- Claim C7 witness: the amended statement applied to poolC7 (ready
connection handed out) and to a fresh pool (request enqueued, spawn
scheduled). -/
theorem claimC7_witness :
    getConnection optsC1 0 10 2 poolC7 = (.ready connC7out, poolC7out, false) ∧
    getConnection optsC1 0 10 2 (freshPool 1) =
      (.enqueued (0 + clampTimeout 10 optsC1.refreshTimeout),
       updateStateInLock optsC1 0
         { freshPool 1 with
           requests :=
             heapPush (freshPool 1).requests (0 + clampTimeout 10 optsC1.refreshTimeout, 2) },
       true) :=
  ⟨(claimC7_amended optsC1 0 10 2 poolC7 (by decide)).1 connC7out poolC7out (by decide),
   (claimC7_amended optsC1 0 10 2 (freshPool 1) (by decide)).2.1 (freshPool 1) (by decide)⟩

/-- Claim C2: under the binary-heap layout invariant (true of the empty
initial vector, preserved by the push in getConnection and by the pop
below), the request that the fulfillment loop serves next is the front of
the heap, whose deadline is smallest among all currently pending
requests; hence for two pending requests with deadlines d1 < d2 the
d2 request is never served by fulfillRequests while the d1 request is
still pending. -/
theorem claimC2_edf (opts : Options) (now : Nat) (fuel : Nat) (p : SpecificPool)
    (h : HeapProp p.requests) :
    (∀ r ∈ p.requests, (heapFront p.requests).1 ≤ r.1) ∧
    (∀ x, HeapProp (heapPush p.requests x)) ∧
    HeapProp (heapPop p.requests) ∧
    (∀ c p1, p.requests.isEmpty = false → tryGetInternal p = (some c, p1) →
      (fulfillLoop opts now (fuel + 1) p).2.head? =
        some ((heapFront p.requests).2, c)) := by
  refine ⟨heapFront_min h, fun x => heapProp_heapPush x h, heapProp_heapPop h, ?_⟩
  intro c p1 hne htry
  have hreq : p1.requests = p.requests := by
    have h2 := tryGetInternal_requests p
    rw [htry] at h2
    exact h2
  unfold fulfillLoop
  rw [if_neg (by simp [hne])]
  simp only [htry]
  rcases hfl : fulfillLoop opts now fuel
      (updateStateInLock opts now { p1 with requests := heapPop p1.requests }) with ⟨p3, rest⟩
  simp [hfl, hreq]

/-- Claim C2 witness: applied to poolC2, whose two pending requests form
a valid heap: the front deadline 3 is below the other deadline 9, pushing
preserves the layout, and the first request served by the fulfillment
loop is request 0 carrying deadline 3. -/
theorem claimC2_witness :
    (heapFront poolC2.requests).1 ≤ (9 : Nat) ∧
    HeapProp (heapPush poolC2.requests (4, 2)) ∧
    (fulfillLoop optsC1 0 2 poolC2).2.head? =
      some (0, connC2.cancelTimeout.resetToUnknown) :=
  ⟨(claimC2_edf optsC1 0 1 poolC2 (by decide)).1 (9, 1) (by decide),
   (claimC2_edf optsC1 0 1 poolC2 (by decide)).2.1 (4, 2),
   (claimC2_edf optsC1 0 1 poolC2 (by decide)).2.2.2 connC2.cancelTimeout.resetToUnknown
     { poolC2 with ready := [], checkedOutPool := [connC2.cancelTimeout.resetToUnknown] }
     (by decide) (by decide)⟩

/-! ### Spawn pass field preservation, used by claim C8 -/

theorem spawnLoop_gen (opts : Options) (mc : Nat) :
    ∀ fuel p, (spawnLoop opts mc fuel p).generation = p.generation
  | 0, _ => rfl
  | fuel + 1, p => by
    unfold spawnLoop
    split_ifs
    · rw [spawnLoop_gen opts mc fuel]
    · rfl

theorem spawnLoop_requests (opts : Options) (mc : Nat) :
    ∀ fuel p, (spawnLoop opts mc fuel p).requests = p.requests
  | 0, _ => rfl
  | fuel + 1, p => by
    unfold spawnLoop
    split_ifs
    · rw [spawnLoop_requests opts mc fuel]
    · rfl

theorem spawnLoop_ready (opts : Options) (mc : Nat) :
    ∀ fuel p, (spawnLoop opts mc fuel p).ready = p.ready
  | 0, _ => rfl
  | fuel + 1, p => by
    unfold spawnLoop
    split_ifs
    · rw [spawnLoop_ready opts mc fuel]
    · rfl

theorem spawnLoop_checkedOut (opts : Options) (mc : Nat) :
    ∀ fuel p, (spawnLoop opts mc fuel p).checkedOutPool = p.checkedOutPool
  | 0, _ => rfl
  | fuel + 1, p => by
    unfold spawnLoop
    split_ifs
    · rw [spawnLoop_checkedOut opts mc fuel]
    · rfl

/-- Claim C8: when a setup or refresh completes with
NetworkInterfaceExceededTimeLimit on a pool that is not shutting down,
the result is exactly a replacement spawn pass over the pool with that
one connection removed from processing: no request is failed, and the
spawn pass leaves generation, requests, ready and checkedOut untouched;
whereas any other non-OK status routes through processFailure, which
fails every pending request with that same status, empties the request
vector, and bumps the generation. -/
theorem claimC8_refresh_errors (opts : Options) (now : Nat) (club : Club) (i cid : Nat)
    (conn : Conn) (rest : List Conn)
    (htake : takeFromPool (club.getPool i).processingPool cid = (some conn, rest))
    (hs : (club.getPool i).state ≠ .kInShutdown) :
    (finishRefresh opts now club i cid (.err .networkInterfaceExceededTimeLimit) =
      (club.setPool i
        (spawnConnections opts club.minConns
          { club.getPool i with processingPool := rest }), [])) ∧
    (spawnConnections opts club.minConns
      { club.getPool i with processingPool := rest }).generation =
        (club.getPool i).generation ∧
    (spawnConnections opts club.minConns
      { club.getPool i with processingPool := rest }).requests =
        (club.getPool i).requests ∧
    (spawnConnections opts club.minConns
      { club.getPool i with processingPool := rest }).ready =
        (club.getPool i).ready ∧
    (spawnConnections opts club.minConns
      { club.getPool i with processingPool := rest }).checkedOutPool =
        (club.getPool i).checkedOutPool ∧
    (∀ e, e ≠ ErrorCode.networkInterfaceExceededTimeLimit →
      finishRefresh opts now club i cid (.err e) =
        (club.setPool i
          (processFailure opts now e { club.getPool i with processingPool := rest }).1,
         (club.getPool i).requests.map (fun r => (r.2, e)))) ∧
    (∀ e,
      (processFailure opts now e { club.getPool i with processingPool := rest }).2 =
        (club.getPool i).requests.map (fun r => (r.2, e)) ∧
      (processFailure opts now e
        { club.getPool i with processingPool := rest }).1.requests = [] ∧
      (processFailure opts now e
        { club.getPool i with processingPool := rest }).1.generation =
          (club.getPool i).generation + 1) := by
  refine ⟨?_, spawnLoop_gen opts club.minConns _ _, spawnLoop_requests opts club.minConns _ _,
    spawnLoop_ready opts club.minConns _ _, spawnLoop_checkedOut opts club.minConns _ _,
    ?_, ?_⟩
  · unfold finishRefresh takeFromProcessingPool
    simp only [htake]
    rw [if_neg hs]
  · intro e he
    unfold finishRefresh takeFromProcessingPool
    simp only [htake]
    rw [if_neg hs]
    cases e with
    | networkInterfaceExceededTimeLimit => exact absurd rfl he
    | shutdownInProgress => rfl
    | pooledConnectionsDropped => rfl
    | internalError => rfl
    | hostUnreachable => rfl
  · intro e
    refine ⟨rfl, ?_, ?_⟩
    · simp only [processFailure, updateStateInLock_requests]
    · simp only [processFailure, updateStateInLock_generation]

/-- Claim C8 witness: applied to clubC8, whose single pool has connection
0 mid-setup and one pending request: a timeout drops just that connection
and respawns, any other error cascades and fails request 0 with the same
status. -/
theorem claimC8_witness :
    finishRefresh optsC1 0 clubC8 0 0 (.err .networkInterfaceExceededTimeLimit) =
      (clubC8.setPool 0
        (spawnConnections optsC1 clubC8.minConns { poolC8 with processingPool := [] }), []) ∧
    finishRefresh optsC1 0 clubC8 0 0 (.err .hostUnreachable) =
      (clubC8.setPool 0
        (processFailure optsC1 0 .hostUnreachable { poolC8 with processingPool := [] }).1,
       [(0, ErrorCode.hostUnreachable)]) :=
  ⟨(claimC8_refresh_errors optsC1 0 clubC8 0 0 (mkConn 0 0) [] (by decide) (by decide)).1,
   ((claimC8_refresh_errors optsC1 0 clubC8 0 0 (mkConn 0 0) [] (by decide)
      (by decide)).2.2.2.2.2.1 .hostUnreachable (by decide))⟩

/-! ### Controller fold lemma, used by claim C9 -/

theorem foldl_inUse_max :
    ∀ (l : List SpecificPool) (d : Nat),
      l.foldl (fun m p => max m (inUseConnections p)) d =
        max d ((l.map inUseConnections).foldr (fun x m => max x m) 0)
  | [], d => by simp
  | p :: l, d => by
    simp only [List.foldl, List.map, List.foldr]
    rw [foldl_inUse_max l (max d (inUseConnections p))]
    exact Nat.max_assoc d (inUseConnections p) _

theorem updateController_minConns (club : Club) :
    (updateController club).minConns =
      max club.defaultMinConns
        ((club.pools.map inUseConnections).foldr (fun x m => max x m) 0) :=
  foldl_inUse_max club.pools club.defaultMinConns

/-- Claim C9: write poolsAfter for the club pools with pool i replaced by
the outcome of the fulfillment loop. After fulfillRequests on pool i the
club minimum equals max(defaultMinConns, maximum over poolsAfter of their
checked-out counts) - the maximum over all member pools, not the
primary-only form - and the club pools are then exactly poolsAfter each
run through spawnConnections under that minimum. -/
theorem claimC9_controller (opts : Options) (now : Nat) (club : Club) (i : Nat) :
    (fulfillRequests opts now club i).minConns =
      max club.defaultMinConns
        (((club.setPool i
            (fulfillLoop opts now (club.getPool i).requests.length
              (club.getPool i)).1).pools.map inUseConnections).foldr
          (fun x m => max x m) 0) ∧
    (fulfillRequests opts now club i).pools =
      (club.setPool i
        (fulfillLoop opts now (club.getPool i).requests.length (club.getPool i)).1).pools.map
          (spawnConnections opts (fulfillRequests opts now club i).minConns) :=
  ⟨updateController_minConns _, rfl⟩

/-- Claim C9 witness: applied to the two-pool clubC9 under options with
defaultMinConns 2: after a fulfillment pass on pool 0 the club minimum is
3, the checked-out count of pool 1. -/
theorem claimC9_witness : (fulfillRequests optsC1 0 clubC9 0).minConns = 3 :=
  ((claimC9_controller optsC1 0 clubC9 0).1).trans (by decide)

/-! ### Checkout loop characterization, used by claim C10 -/

theorem tryGetLoop_spec :
    ∀ l : List Conn,
      tryGetLoop l =
        match l.dropWhile (fun c => !c.healthy) with
        | [] => (none, [])
        | c :: tl => (some c.cancelTimeout.resetToUnknown, tl)
  | [] => rfl
  | c :: l => by
    simp only [tryGetLoop, List.dropWhile]
    by_cases h : c.healthy
    · simp [h, Conn.cancelTimeout]
    · simp [h, Conn.cancelTimeout, tryGetLoop_spec l]

theorem dropWhile_head_healthy :
    ∀ (l : List Conn) (c : Conn) (tl : List Conn),
      l.dropWhile (fun c => !c.healthy) = c :: tl → c.healthy = true
  | [], c, tl, h => by simp [List.dropWhile] at h
  | a :: l, c, tl, h => by
    simp only [List.dropWhile] at h
    by_cases ha : a.healthy
    · simp only [ha, Bool.not_true, List.cons.injEq] at h
      rw [← h.1]
      exact ha
    · simp only [ha, Bool.not_false] at h
      exact dropWhile_head_healthy l c tl h

/-- Claim C10: the checkout path tryGetInternal (shared by getConnection,
tryGetConnection and the fulfillment loop) walks the ready list from the
MRU front: every connection before the first healthy one is unhealthy and
is removed with its refresh timeout cancelled and nothing spawned in its
place (processing and the created count are untouched); when a healthy
connection exists, the first one in MRU order is handed out with its
refresh timer cancelled and its status reset to Unknown, and it moves to
the checkedOut container; otherwise nothing is handed out and the ready
list is left empty. -/
theorem claimC10_checkout (p : SpecificPool) :
    (∀ c ∈ p.ready.takeWhile (fun c => !c.healthy), c.healthy = false) ∧
    (p.ready.dropWhile (fun c => !c.healthy) = [] →
      tryGetInternal p = (none, { p with ready := [] })) ∧
    (∀ c tl, p.ready.dropWhile (fun c => !c.healthy) = c :: tl →
      c.healthy = true ∧
      tryGetInternal p =
        (some c.cancelTimeout.resetToUnknown,
         { p with ready := tl, checkedOutPool := c.cancelTimeout.resetToUnknown :: p.checkedOutPool })) ∧
    (tryGetInternal p).2.processingPool = p.processingPool ∧
    (tryGetInternal p).2.created = p.created := by
  refine ⟨?_, ?_, ?_, ?_, ?_⟩
  · intro c hc
    have := List.mem_takeWhile_imp hc
    simpa using this
  · intro h
    unfold tryGetInternal
    rw [tryGetLoop_spec p.ready, h]
  · intro c tl h
    refine ⟨dropWhile_head_healthy p.ready c tl h, ?_⟩
    unfold tryGetInternal
    rw [tryGetLoop_spec p.ready, h]
  · unfold tryGetInternal
    rcases h : tryGetLoop p.ready with ⟨_ | c, rest⟩ <;> simp [h]
  · unfold tryGetInternal
    rcases h : tryGetLoop p.ready with ⟨_ | c, rest⟩ <;> simp [h]

/-- Claim C10 witness: applied to poolC10, whose MRU ready connection is
unhealthy and whose second ready connection is healthy: the unhealthy one
is dropped and the healthy one is handed out checked out, timer
cancelled, status Unknown. -/
theorem claimC10_witness :
    connC10bad.healthy = false ∧
    connC2.healthy = true ∧
    tryGetInternal poolC10 =
      (some connC2.cancelTimeout.resetToUnknown,
       { poolC10 with ready := [], checkedOutPool := [connC2.cancelTimeout.resetToUnknown] }) :=
  ⟨(claimC10_checkout poolC10).1 connC10bad (by decide),
   ((claimC10_checkout poolC10).2.2.1 connC2 [] (by decide)).1,
   ((claimC10_checkout poolC10).2.2.1 connC2 [] (by decide)).2⟩

end ConnPool
